import Mathlib

/-!
# Verification of `pimple-log-stats.py` (foam-utils)

Shallow embedding of the streaming log-to-table converter in
`src/pimple-log-stats.py`.  A log line is modelled as its content without
the trailing newline, i.e. a `List Char` that contains no `'\n'` (this is
exactly what Python's file iteration followed by the `^...$`-anchored
`re.search` sees: `$` matches just before the trailing newline, and a line
with an interior newline can never match any of the fully anchored
patterns, which is mirrored here by the `noNL` guard in every matcher).

Each of the seven regular expressions of `LogItemParser._line_regexps` is
embedded as an executable function returning the captured groups, with
Python's greedy `(.+)` semantics realised by `splitLastP`: the split at the
*last* occurrence of the literal separator for which the rest of the
pattern still matches.
-/

/-- `String.data` written as a function, for building `List Char` literals. -/
def chars (s : String) : List Char := s.data

/-- `True` when the line contains no newline character.  The seven patterns
are anchored `^...$` and every character of a matching line falls in a
literal or a `(.+)`/`(\d+)` group, none of which can contain `'\n'`, so a
line holding a newline matches none of them. -/
def noNL (l : List Char) : Bool := l.all (fun c => c ≠ '\n')

/-- Strip a literal prefix, returning the remainder on success. -/
def stripPrefix? : List Char → List Char → Option (List Char)
  | [], l => some l
  | _ :: _, [] => none
  | p :: ps, c :: cs => if p = c then stripPrefix? ps cs else none

/-- Strip a literal suffix, returning the initial part on success. -/
def stripSuffix? (suf l : List Char) : Option (List Char) :=
  if suf.length ≤ l.length ∧ l.drop (l.length - suf.length) = suf then
    some (l.take (l.length - suf.length))
  else none

/-- Split `l` as `a ++ sep ++ b` at the *last* occurrence of the literal
separator `sep` for which `ok b` holds.  This is exactly the greedy
backtracking behaviour of a `(.+)` group followed by the literal `sep`
followed by a rest-pattern whose matchability is decided by `ok`. -/
def splitLastP (sep : List Char) (ok : List Char → Bool) : List Char → Option (List Char × List Char)
  | [] => none
  | c :: cs =>
    match splitLastP sep ok cs with
    | some (a, b) => some (c :: a, b)
    | none =>
      match stripPrefix? sep (c :: cs) with
      | some b => if ok b then some ([], b) else none
      | none => none

/-- `^Time = (.+)$` -/
def matchTime (l : List Char) : Option (List Char) :=
  if noNL l then
    match stripPrefix? (chars "Time = ") l with
    | some r => if r.isEmpty then none else some r
    | none => none
  else none

/-- `^deltaT = (.+)$` -/
def matchDeltaT (l : List Char) : Option (List Char) :=
  if noNL l then
    match stripPrefix? (chars "deltaT = ") l with
    | some r => if r.isEmpty then none else some r
    | none => none
  else none

/-- `^Courant Number mean: (.+) max: (.+)$` -/
def matchCourant (l : List Char) : Option (List Char × List Char) :=
  if noNL l then
    match stripPrefix? (chars "Courant Number mean: ") l with
    | some t =>
      match splitLastP (chars " max: ") (fun b => !b.isEmpty) t with
      | some (a, b) => if a.isEmpty then none else some (a, b)
      | none => none
    | none => none
  else none

/-- Matchability of the rest-pattern `(.+) s$` of the `ExecutionTime` line:
the remainder must end in the literal `" s"` with a nonempty group before it. -/
def execRestOk (b : List Char) : Bool := decide (2 < b.length) && (chars " s").isSuffixOf b

/-- `^ExecutionTime = (.+) s  ClockTime = (.+) s$` -/
def matchExecTime (l : List Char) : Option (List Char × List Char) :=
  if noNL l then
    match stripPrefix? (chars "ExecutionTime = ") l with
    | some t =>
      match splitLastP (chars " s  ClockTime = ") execRestOk t with
      | some (a, b) => if a.isEmpty then none else some (a, b.take (b.length - 2))
      | none => none
    | none => none
  else none

/-- Rest-pattern `(.+), cumulative = (.+)$` of the continuity-errors line. -/
def contInner (b : List Char) : Option (List Char × List Char) :=
  match splitLastP (chars ", cumulative = ") (fun c => !c.isEmpty) b with
  | some (y, z) => if y.isEmpty then none else some (y, z)
  | none => none

/-- `^time step continuity errors : sum local = (.+), global = (.+), cumulative = (.+)$` -/
def matchContinuity (l : List Char) : Option (List Char × List Char × List Char) :=
  if noNL l then
    match stripPrefix? (chars "time step continuity errors : sum local = ") l with
    | some t =>
      match splitLastP (chars ", global = ") (fun b => (contInner b).isSome) t with
      | some (x, b) =>
        if x.isEmpty then none
        else
          match contInner b with
          | some (y, z) => some (x, y, z)
          | none => none
      | none => none
    | none => none
  else none

/-- Nonempty and all ASCII digits, the language of `(\d+)`. -/
def digitsOnly (m : List Char) : Bool := !m.isEmpty && m.all Char.isDigit

/-- `^PIMPLE: converged in (\d+) iterations$` -/
def matchConverged (l : List Char) : Option (List Char) :=
  if noNL l then
    match stripPrefix? (chars "PIMPLE: converged in ") l with
    | some t =>
      match stripSuffix? (chars " iterations") t with
      | some m => if digitsOnly m then some m else none
      | none => none
    | none => none
  else none

/-- `^PIMPLE: not converged within (\d+) iterations$` -/
def matchNotConverged (l : List Char) : Option (List Char) :=
  if noNL l then
    match stripPrefix? (chars "PIMPLE: not converged within ") l with
    | some t =>
      match stripSuffix? (chars " iterations") t with
      | some m => if digitsOnly m then some m else none
      | none => none
    | none => none
  else none

example : matchTime (chars "Time = 0.1") = some (chars "0.1") := by decide
example : matchCourant (chars "Courant Number mean: 0.05 max: 0.3")
    = some (chars "0.05", chars "0.3") := by decide
example : matchExecTime (chars "ExecutionTime = 12.3 s  ClockTime = 13.1 s")
    = some (chars "12.3", chars "13.1") := by decide
example : matchContinuity
    (chars "time step continuity errors : sum local = 1e-6, global = 2e-6, cumulative = 3e-6")
    = some (chars "1e-6", chars "2e-6", chars "3e-6") := by decide
example : matchConverged (chars "PIMPLE: converged in 4 iterations") = some (chars "4") := by decide
example : matchNotConverged (chars "PIMPLE: not converged within 50 iterations")
    = some (chars "50") := by decide
example : matchTime (chars "deltaT = 0.001") = none := by decide
example : matchExecTime (chars "ExecutionTime = 1 s  ClockTime = 2 s  ClockTime = 3 s")
    = some (chars "1 s  ClockTime = 2", chars "3") := by decide

/-!
## Parser state and matcher list

`PState` embeds the mutable state of a `LogItemParser` instance.  The
Python class backs most fields with an underscore attribute exposed
through a property whose setter stores the captured *string* unchanged;
their initial values are the integers of `__init__`, which print as
`"-1"`/`"0"`.  Three names targeted by `setattr` — `courant_number_max`,
`execution_time` and `clock_time` — have *no* property in the class, so
they are plain instance attributes that do not exist until first assigned;
they are embedded as `Option (List Char)` starting at `none` (reading them
before assignment raises `AttributeError`).  `__init__` also sets the
underscore-only attributes `_courant_number_max = 0`, `_converged_in = -1`
and `_residuals = {}`, which nothing ever reads; they are omitted.
-/

/-- Names of value-carrying attributes assigned by capture groups. -/
inductive ValField where
  | time
  | delta_t
  | courant_number_mean
  | courant_number_max
  | continuity_errors_local
  | continuity_errors_global
  | continuity_errors_cumulative
  | niterations
  | execution_time
  | clock_time
deriving DecidableEq, Repr

/-- Names of the boolean flag attributes assigned via the `match=` keyword. -/
inductive FlagField where
  | converged
  | not_converged
deriving DecidableEq, Repr

/-- State of a `LogItemParser` instance. -/
structure PState where
  timeIndex : Nat
  time : List Char
  delta_t : List Char
  courant_number_mean : List Char
  courant_number_max : Option (List Char)
  continuity_errors_local : List Char
  continuity_errors_global : List Char
  continuity_errors_cumulative : List Char
  niterations : List Char
  converged : Bool
  execution_time : Option (List Char)
  clock_time : Option (List Char)
deriving DecidableEq, Repr

/-- State right after `LogItemParser.__init__`. -/
def initState : PState where
  timeIndex := 0
  time := chars "-1"
  delta_t := chars "-1"
  courant_number_mean := chars "0"
  courant_number_max := none
  continuity_errors_local := chars "-1"
  continuity_errors_global := chars "-1"
  continuity_errors_cumulative := chars "-1"
  niterations := chars "-1"
  converged := false
  execution_time := none
  clock_time := none

/-- `setattr(obj, name, v)` for a capture-group value `v`: for the
property-backed names this runs the property setter (which stores the
string unchanged), for the three property-less names it creates/overwrites
the plain instance attribute. -/
def setField (s : PState) (f : ValField) (v : List Char) : PState :=
  match f with
  | .time => {s with time := v}
  | .delta_t => {s with delta_t := v}
  | .courant_number_mean => {s with courant_number_mean := v}
  | .courant_number_max => {s with courant_number_max := some v}
  | .continuity_errors_local => {s with continuity_errors_local := v}
  | .continuity_errors_global => {s with continuity_errors_global := v}
  | .continuity_errors_cumulative => {s with continuity_errors_cumulative := v}
  | .niterations => {s with niterations := v}
  | .execution_time => {s with execution_time := some v}
  | .clock_time => {s with clock_time := some v}

/-- `setattr(obj, flag, True)` for the `match=` flag.  The class defines
`converged.setter converged` as `self._converged = val` and
`converged.setter not_converged` as `self._converged = not val`, so
setting `converged = True` stores `true` and setting `not_converged = True`
stores `false`. -/
def setFlag (s : PState) : Option FlagField → PState
  | none => s
  | some .converged => {s with converged := true}
  | some .not_converged => {s with converged := false}

/-- `for i, v in enumerate(r.groups()): setattr(obj, self._vars[i], v)`. -/
def setVars (s : PState) (vars : List ValField) (gs : List (List Char)) : PState :=
  (vars.zip gs).foldl (fun st p => setField st p.1 p.2) s

/-- Embedding of a constructed `LogLineRegexp`: the capture-group count of
the compiled pattern, the matching function returning the groups of a
successful search, the target attribute names, and the `end`/`match`
keyword options. -/
structure Matcher where
  groups : Nat
  run : List Char → Option (List (List Char))
  vars : List ValField
  endFlag : Bool
  matchFlag : Option FlagField

/-- `LogLineRegexp.__init__`: the variable list is `var` plus the extra
positional `args`; construction raises `UserWarning` when the number of
capture groups of the compiled pattern differs from the number of
variables. -/
def mkLogLineRegexp (groups : Nat) (run : List Char → Option (List (List Char)))
    (var : ValField) (args : List ValField) (endFlag : Bool) (matchFlag : Option FlagField) :
    Except String Matcher :=
  let vars := var :: args
  if groups ≠ vars.length then
    .error "Number of groups in regular expression should be equal to number of variables"
  else
    .ok ⟨groups, run, vars, endFlag, matchFlag⟩

def execGroups (l : List Char) : Option (List (List Char)) :=
  (matchExecTime l).map (fun p => [p.1, p.2])

def courantGroups (l : List Char) : Option (List (List Char)) :=
  (matchCourant l).map (fun p => [p.1, p.2])

def deltaTGroups (l : List Char) : Option (List (List Char)) :=
  (matchDeltaT l).map (fun a => [a])

def timeGroups (l : List Char) : Option (List (List Char)) :=
  (matchTime l).map (fun a => [a])

def contGroups (l : List Char) : Option (List (List Char)) :=
  (matchContinuity l).map (fun t => [t.1, t.2.1, t.2.2])

def convergedGroups (l : List Char) : Option (List (List Char)) :=
  (matchConverged l).map (fun a => [a])

def notConvergedGroups (l : List Char) : Option (List (List Char)) :=
  (matchNotConverged l).map (fun a => [a])

/-- The value of `LogItemParser._line_regexps`, in source order: the
`ExecutionTime`/`ClockTime` end-of-record matcher comes first. -/
def lineRegexps : List Matcher :=
  [⟨2, execGroups, [.execution_time, .clock_time], true, none⟩,
   ⟨2, courantGroups, [.courant_number_mean, .courant_number_max], false, none⟩,
   ⟨1, deltaTGroups, [.delta_t], false, none⟩,
   ⟨1, timeGroups, [.time], false, none⟩,
   ⟨3, contGroups,
    [.continuity_errors_local, .continuity_errors_global, .continuity_errors_cumulative],
    false, none⟩,
   ⟨1, convergedGroups, [.niterations], false, some .converged⟩,
   ⟨1, notConvergedGroups, [.niterations], false, some .not_converged⟩]

/-- `_line_regexps` built through the checked constructor, as
`LogItemParser.__init__` does. -/
def lineRegexpsChecked : Except String (List Matcher) := do
  let m1 ← mkLogLineRegexp 2 execGroups .execution_time [.clock_time] true none
  let m2 ← mkLogLineRegexp 2 courantGroups .courant_number_mean [.courant_number_max] false none
  let m3 ← mkLogLineRegexp 1 deltaTGroups .delta_t [] false none
  let m4 ← mkLogLineRegexp 1 timeGroups .time [] false none
  let m5 ← mkLogLineRegexp 3 contGroups .continuity_errors_local
    [.continuity_errors_global, .continuity_errors_cumulative] false none
  let m6 ← mkLogLineRegexp 1 convergedGroups .niterations [] false (some .converged)
  let m7 ← mkLogLineRegexp 1 notConvergedGroups .niterations [] false (some .not_converged)
  pure [m1, m2, m3, m4, m5, m6, m7]

example : lineRegexpsChecked = .ok lineRegexps := rfl

/-- `LogLineRegexp.__call__`: on a search hit assign every group to its
variable in order, then raise `EndOfItem` (the `true` flag) if `end` is
set, otherwise set the `match` flag if present.  No match leaves the
state untouched. -/
def applyMatcher (m : Matcher) (l : List Char) (s : PState) : PState × Bool :=
  match m.run l with
  | none => (s, false)
  | some gs =>
    let s1 := setVars s m.vars gs
    if m.endFlag then (s1, true) else (setFlag s1 m.matchFlag, false)

/-- The `for regex in self._line_regexps: regex(line, self)` loop of
`slurp`: matchers run in list order; a raised `EndOfItem` (the `true`
flag) escapes the loop, skipping the remaining matchers for that line. -/
def applyMatchers : List Matcher → List Char → PState → PState × Bool
  | [], _, s => (s, false)
  | m :: ms, l, s =>
    match applyMatcher m l s with
    | (s1, true) => (s1, true)
    | (s1, false) => applyMatchers ms l s1

/-- Processing of one input line by `slurp`'s inner loop. -/
def applyLine (s : PState) (l : List Char) : PState × Bool :=
  applyMatchers lineRegexps l s

/-!
## `slurp`, `spit` and the driver loop of `_run`
-/

/-- `LogItemParser.slurp`: pull lines until some matcher raises
`EndOfItem`; the handler then increments `_time_index` and returns.  When
the input iterator is exhausted first, `NoMoreItems` is raised instead
(`none`).  On success the state together with the unread remainder of the
input is returned. -/
def slurp (s : PState) : List (List Char) → Option (PState × List (List Char))
  | [] => none
  | l :: ls =>
    match applyLine s l with
    | (s1, true) => some ({s1 with timeIndex := s1.timeIndex + 1}, ls)
    | (s1, false) => slurp s1 ls

/-- A row, as the list of the twelve field strings of one output line. -/
abbrev Row := List (List Char)

/-- `str` of a nonnegative Python int. -/
def natChars (n : Nat) : List Char := (Nat.repr n).data

/-- `LogItemParser.spit`: the twelve values interpolated into the format
string, in source order.  Reading the property-less attributes
`courant_number_max`, `execution_time`, `clock_time` raises
`AttributeError` when they were never assigned (`none`); the arguments are
all evaluated before anything is written, so a failing row writes
nothing. -/
def spitFields (s : PState) : Option Row :=
  match s.courant_number_max, s.execution_time, s.clock_time with
  | some cmax, some et, some ct =>
    some [natChars s.timeIndex, s.time, s.delta_t, s.courant_number_mean, cmax,
          s.continuity_errors_local, s.continuity_errors_global,
          s.continuity_errors_cumulative, s.niterations,
          (if s.converged then chars "1" else chars "0"), et, ct]
  | _, _, _ => none

/-- The content of the written output line: fields joined by single
spaces, as the `'{0} {1} ... {11}\n'` format string does (the trailing
newline is left implicit, as for input lines). -/
def joinFields (fs : Row) : List Char := (List.intersperse (chars " ") fs).flatten

/-- `LogItemParser.header()`. -/
def headerLine : List Char :=
  chars ("# 0_step# 1_time 2_dt 3_Co_mean 4_Co_max 5_err_local " ++
         "6_err_global 7_err_cumulative 8_niter 9_converged? " ++
         "10_exec_time 11_clock_time")

/-- Outcome of the `while True: slurp(); spit()` loop of `_run`: either
`NoMoreItems` was raised and caught (clean termination, exit code 0) or an
`AttributeError` escaped from `spit` (crash).  Both carry the data rows
written before the loop ended. -/
inductive RunResult where
  | ok (rows : List Row)
  | attrError (rows : List Row)
deriving DecidableEq, Repr

/-- Data rows of a run outcome. -/
def rowsOf : RunResult → List Row
  | .ok rows => rows
  | .attrError rows => rows

theorem slurp_rest_length {s : PState} :
    ∀ {lines s' rest}, slurp s lines = some (s', rest) → rest.length < lines.length := by
  intro lines
  induction lines generalizing s with
  | nil => intro s' rest h; simp [slurp] at h
  | cons l ls ih =>
    intro s' rest h
    unfold slurp at h
    rcases ha : applyLine s l with ⟨s1, b⟩
    rw [ha] at h
    cases b with
    | true =>
      simp at h
      simp [← h.2, List.length_cons]
    | false =>
      simp at h
      exact Nat.lt_trans (ih h) (Nat.lt_succ_self _)

/-- The `while True: slurp(); spit()` loop of `_run`, with an explicit
recursion bound.  Since `slurp` consumes at least one input line per
completed record, a bound of `lines.length` can never be hit
(`runLoopF_fuel` below shows the bound is semantically irrelevant); the
bound only makes the definition structurally recursive and hence
kernel-computable. -/
def runLoopF : Nat → PState → List (List Char) → RunResult
  | 0, _, _ => .ok []
  | fuel + 1, s, lines =>
    match slurp s lines with
    | none => .ok []
    | some (s', rest) =>
      match spitFields s' with
      | none => .attrError []
      | some row =>
        match runLoopF fuel s' rest with
        | .ok rows => .ok (row :: rows)
        | .attrError rows => .attrError (row :: rows)

/-- The `while True: slurp(); spit()` loop of `_run`, run to completion
from state `s` on the remaining input. -/
def runLoop (s : PState) (lines : List (List Char)) : RunResult :=
  runLoopF lines.length s lines

/-- Any recursion bound of at least `lines.length` gives the same result:
the bound in `runLoop` is an artifact, not a semantic truncation. -/
theorem runLoopF_fuel :
    ∀ (f1 f2 : Nat) (s : PState) (lines : List (List Char)),
      lines.length ≤ f1 → lines.length ≤ f2 →
      runLoopF f1 s lines = runLoopF f2 s lines := by
  intro f1
  induction f1 with
  | zero =>
    intro f2 s lines h1 _
    have : lines = [] := List.eq_nil_of_length_eq_zero (Nat.le_zero.mp h1)
    subst this
    cases f2 with
    | zero => rfl
    | succ f2 => simp [runLoopF, slurp]
  | succ f1 ih =>
    intro f2 s lines h1 h2
    cases f2 with
    | zero =>
      have : lines = [] := List.eq_nil_of_length_eq_zero (Nat.le_zero.mp h2)
      subst this
      simp [runLoopF, slurp]
    | succ f2 =>
      show runLoopF (f1 + 1) s lines = runLoopF (f2 + 1) s lines
      unfold runLoopF
      rcases hs : slurp s lines with _ | ⟨s', rest⟩
      · rfl
      · have hr : rest.length < lines.length := slurp_rest_length hs
        have e : runLoopF f1 s' rest = runLoopF f2 s' rest :=
          ih f2 s' rest (Nat.le_of_lt_succ (Nat.lt_of_lt_of_le hr h1))
            (Nat.le_of_lt_succ (Nat.lt_of_lt_of_le hr h2))
        simp [e]

/-- One-step unfolding of `runLoop`: on success the loop spits the record
just read and continues from the returned state on the unread input. -/
theorem runLoop_eq (s : PState) (lines : List (List Char)) :
    runLoop s lines =
      match slurp s lines with
      | none => .ok []
      | some (s', rest) =>
        match spitFields s' with
        | none => .attrError []
        | some row =>
          match runLoop s' rest with
          | .ok rows => .ok (row :: rows)
          | .attrError rows => .attrError (row :: rows) := by
  cases lines with
  | nil => simp [runLoop, runLoopF, slurp]
  | cons l ls =>
    show runLoopF (ls.length + 1) s (l :: ls) = _
    unfold runLoopF
    rcases hs : slurp s (l :: ls) with _ | ⟨s', rest⟩
    · rfl
    · have hr : rest.length < (l :: ls).length := slurp_rest_length hs
      have e : runLoopF ls.length s' rest = runLoop s' rest :=
        runLoopF_fuel ls.length rest.length s' rest (Nat.le_of_lt_succ hr) (Nat.le_refl _)
      simp [e, runLoop]

/-- The observable behaviour of `_run` once the streams are open: the
full list of output lines written (header first) and whether the run
terminated cleanly with exit code 0 (`true`) or crashed out of the loop
(`false`). -/
def programOutput (lines : List (List Char)) : List (List Char) × Bool :=
  match runLoop initState lines with
  | .ok rows => (headerLine :: rows.map joinFields, true)
  | .attrError rows => (headerLine :: rows.map joinFields, false)

/-!
## The command-line surface of `_run`

Before any processing, `_run` checks the `-i` argument against
`os.path.exists` and raises `IOError` if the file is missing; then checks
the `-o` argument and raises `IOError` when the named file exists and
`--force` was not given.  Both raises happen before `open(output, 'w')`,
so the pre-existing output file is never opened, truncated or written.
An uncaught `IOError` terminates the process with a nonzero exit status.
-/

/-- The resource errors `_run` can raise before processing. -/
inductive RunErr where
  | inputMissing
  | outputExists
deriving DecidableEq, Repr

/-- The relevant command-line flags of `_run`. -/
structure CmdArgs where
  inputGiven : Bool
  outputGiven : Bool
  force : Bool
deriving DecidableEq, Repr

/-- `_run` as a whole: the file checks in source order, then the
header/slurp/spit loop.  `.error e` means the corresponding `IOError` was
raised before the output file was opened for writing: nothing is written
and a pre-existing output file keeps its contents. -/
def runCLI (inputExists outputExists : Bool) (a : CmdArgs) (lines : List (List Char)) :
    Except RunErr (List (List Char) × Bool) :=
  if a.inputGiven && !inputExists then .error .inputMissing
  else if a.outputGiven && outputExists && !a.force then .error .outputExists
  else .ok (programOutput lines)

example :
    runLoop initState
      [chars "Time = 0.1",
       chars "Courant Number mean: 0.05 max: 0.3",
       chars "deltaT = 0.001",
       chars "time step continuity errors : sum local = 1e-6, global = 2e-6, cumulative = 3e-6",
       chars "PIMPLE: converged in 4 iterations",
       chars "ExecutionTime = 12.3 s  ClockTime = 13.1 s"]
    = .ok [[chars "1", chars "0.1", chars "0.001", chars "0.05", chars "0.3",
            chars "1e-6", chars "2e-6", chars "3e-6", chars "4", chars "1",
            chars "12.3", chars "13.1"]] := by decide

/-!
## Structural lemmas about one line
-/

/-- `applyLine` written out matcher by matcher.  The `ExecutionTime`
matcher is first in `_line_regexps`; when it hits, `EndOfItem` is raised
right after its two assignments and no further matcher sees the line.
Otherwise the remaining six matchers each apply in order. -/
def applyLineE (s : PState) (l : List Char) : PState × Bool :=
  match matchExecTime l with
  | some (e, c) => ({s with execution_time := some e, clock_time := some c}, true)
  | none =>
    let s1 := match matchCourant l with
      | some (a, b) => {s with courant_number_mean := a, courant_number_max := some b}
      | none => s
    let s2 := match matchDeltaT l with
      | some d => {s1 with delta_t := d}
      | none => s1
    let s3 := match matchTime l with
      | some t => {s2 with time := t}
      | none => s2
    let s4 := match matchContinuity l with
      | some (x, y, z) =>
        {s3 with continuity_errors_local := x, continuity_errors_global := y,
                 continuity_errors_cumulative := z}
      | none => s3
    let s5 := match matchConverged l with
      | some n => {s4 with niterations := n, converged := true}
      | none => s4
    let s6 := match matchNotConverged l with
      | some n => {s5 with niterations := n, converged := false}
      | none => s5
    (s6, false)

theorem applyMatcher_exec (s : PState) (l : List Char) :
    applyMatcher ⟨2, execGroups, [.execution_time, .clock_time], true, none⟩ l s
    = match matchExecTime l with
      | some (e, c) => ({s with execution_time := some e, clock_time := some c}, true)
      | none => (s, false) := by
  unfold applyMatcher execGroups
  cases h : matchExecTime l with
  | none => simp [h]
  | some p => rcases p with ⟨e, c⟩; simp [h, setVars, setField]

theorem applyMatcher_courant (s : PState) (l : List Char) :
    applyMatcher ⟨2, courantGroups, [.courant_number_mean, .courant_number_max], false, none⟩ l s
    = match matchCourant l with
      | some (a, b) =>
        ({s with courant_number_mean := a, courant_number_max := some b}, false)
      | none => (s, false) := by
  unfold applyMatcher courantGroups
  cases h : matchCourant l with
  | none => simp [h]
  | some p => rcases p with ⟨a, b⟩; simp [h, setVars, setField, setFlag]

theorem applyMatcher_deltaT (s : PState) (l : List Char) :
    applyMatcher ⟨1, deltaTGroups, [.delta_t], false, none⟩ l s
    = match matchDeltaT l with
      | some d => ({s with delta_t := d}, false)
      | none => (s, false) := by
  unfold applyMatcher deltaTGroups
  cases h : matchDeltaT l with
  | none => simp [h]
  | some d => simp [h, setVars, setField, setFlag]

theorem applyMatcher_time (s : PState) (l : List Char) :
    applyMatcher ⟨1, timeGroups, [.time], false, none⟩ l s
    = match matchTime l with
      | some t => ({s with time := t}, false)
      | none => (s, false) := by
  unfold applyMatcher timeGroups
  cases h : matchTime l with
  | none => simp [h]
  | some t => simp [h, setVars, setField, setFlag]

theorem applyMatcher_cont (s : PState) (l : List Char) :
    applyMatcher
      ⟨3, contGroups,
       [.continuity_errors_local, .continuity_errors_global, .continuity_errors_cumulative],
       false, none⟩ l s
    = match matchContinuity l with
      | some (x, y, z) =>
        ({s with continuity_errors_local := x, continuity_errors_global := y,
                 continuity_errors_cumulative := z}, false)
      | none => (s, false) := by
  unfold applyMatcher contGroups
  cases h : matchContinuity l with
  | none => simp [h]
  | some p => rcases p with ⟨x, y, z⟩; simp [h, setVars, setField, setFlag]

theorem applyMatcher_conv (s : PState) (l : List Char) :
    applyMatcher ⟨1, convergedGroups, [.niterations], false, some .converged⟩ l s
    = match matchConverged l with
      | some n => ({s with niterations := n, converged := true}, false)
      | none => (s, false) := by
  unfold applyMatcher convergedGroups
  cases h : matchConverged l with
  | none => simp [h]
  | some n => simp [h, setVars, setField, setFlag]

theorem applyMatcher_notConv (s : PState) (l : List Char) :
    applyMatcher ⟨1, notConvergedGroups, [.niterations], false, some .not_converged⟩ l s
    = match matchNotConverged l with
      | some n => ({s with niterations := n, converged := false}, false)
      | none => (s, false) := by
  unfold applyMatcher notConvergedGroups
  cases h : matchNotConverged l with
  | none => simp [h]
  | some n => simp [h, setVars, setField, setFlag]

set_option maxHeartbeats 1000000 in
theorem applyLine_eq_explicit (s : PState) (l : List Char) :
    applyLine s l = applyLineE s l := by
  show applyMatchers lineRegexps l s = applyLineE s l
  rw [lineRegexps]
  rw [applyMatchers, applyMatcher_exec]
  cases h1 : matchExecTime l with
  | some p =>
    rcases p with ⟨e, c⟩
    simp only [applyLineE, h1]
  | none =>
    simp only [h1]
    rw [applyMatchers, applyMatcher_courant]
    rcases h2 : matchCourant l with _ | ⟨a, b⟩ <;>
      simp only [h2] <;>
      rw [applyMatchers, applyMatcher_deltaT] <;>
      rcases h3 : matchDeltaT l with _ | d <;>
      simp only [h3] <;>
      rw [applyMatchers, applyMatcher_time] <;>
      rcases h4 : matchTime l with _ | t <;>
      simp only [h4] <;>
      rw [applyMatchers, applyMatcher_cont] <;>
      rcases h5 : matchContinuity l with _ | ⟨x, y, z⟩ <;>
      simp only [h5] <;>
      rw [applyMatchers, applyMatcher_conv] <;>
      rcases h6 : matchConverged l with _ | n <;>
      simp only [h6] <;>
      rw [applyMatchers, applyMatcher_notConv] <;>
      rcases h7 : matchNotConverged l with _ | n' <;>
      simp only [h7, applyMatchers] <;>
      simp only [applyLineE, h1, h2, h3, h4, h5, h6, h7]

theorem stripPrefix?_eq_some {p : List Char} :
    ∀ {l r : List Char}, stripPrefix? p l = some r ↔ l = p ++ r := by
  induction p with
  | nil => intro l r; simp [stripPrefix?]
  | cons c cs ih =>
    intro l r
    cases l with
    | nil => simp [stripPrefix?]
    | cons d ds =>
      simp only [stripPrefix?]
      by_cases hc : c = d
      · subst hc
        rw [if_pos rfl]
        simp [ih]
      · rw [if_neg hc]
        constructor
        · intro h; exact Option.noConfusion h
        · intro h
          injection h with h1 h2
          exact absurd h1.symm hc

theorem matchExecTime_prefix {l : List Char} {p : List Char × List Char}
    (h : matchExecTime l = some p) : ∃ t, l = chars "ExecutionTime = " ++ t := by
  unfold matchExecTime at h
  by_cases hn : noNL l = true
  · rw [if_pos hn] at h
    rcases hs : stripPrefix? (chars "ExecutionTime = ") l with _ | t
    · rw [hs] at h; exact absurd h (by simp)
    · exact ⟨t, stripPrefix?_eq_some.mp hs⟩
  · rw [if_neg hn] at h; exact absurd h (by simp)

theorem matchConverged_prefix {l : List Char} {n : List Char}
    (h : matchConverged l = some n) : ∃ t, l = chars "PIMPLE: converged in " ++ t := by
  unfold matchConverged at h
  by_cases hn : noNL l = true
  · rw [if_pos hn] at h
    rcases hs : stripPrefix? (chars "PIMPLE: converged in ") l with _ | t
    · rw [hs] at h; exact absurd h (by simp)
    · exact ⟨t, stripPrefix?_eq_some.mp hs⟩
  · rw [if_neg hn] at h; exact absurd h (by simp)

/-- A hit of the end-of-record pattern excludes both `PIMPLE:` patterns on
the same line: the anchored literal prefixes already disagree. -/
theorem exec_not_pimple {l : List Char} {p : List Char × List Char}
    (h : matchExecTime l = some p) :
    matchConverged l = none ∧ matchNotConverged l = none := by
  obtain ⟨t, rfl⟩ := matchExecTime_prefix h
  constructor
  · unfold matchConverged
    rw [show stripPrefix? (chars "PIMPLE: converged in ")
          (chars "ExecutionTime = " ++ t) = none from rfl]
    simp
  · unfold matchNotConverged
    rw [show stripPrefix? (chars "PIMPLE: not converged within ")
          (chars "ExecutionTime = " ++ t) = none from rfl]
    simp

/-- The two `PIMPLE:` patterns exclude each other on any line. -/
theorem conv_not_notConv {l : List Char} {n : List Char}
    (h : matchConverged l = some n) : matchNotConverged l = none := by
  obtain ⟨t, rfl⟩ := matchConverged_prefix h
  unfold matchNotConverged
  rw [show stripPrefix? (chars "PIMPLE: not converged within ")
        (chars "PIMPLE: converged in " ++ t) = none from rfl]
  simp

/-!
## Field behaviour of one processed line
-/

theorem applyLine_timeIndex (s : PState) (l : List Char) :
    (applyLine s l).1.timeIndex = s.timeIndex := by
  rw [applyLine_eq_explicit]
  unfold applyLineE
  rcases matchExecTime l with _ | ⟨e, c⟩
  · rcases matchCourant l with _ | ⟨a, b⟩ <;>
      rcases matchDeltaT l with _ | d <;>
      rcases matchTime l with _ | t <;>
      rcases matchContinuity l with _ | ⟨x, y, z⟩ <;>
      rcases matchConverged l with _ | n <;>
      rcases matchNotConverged l with _ | n' <;> rfl
  · rfl

theorem applyLine_time (s : PState) (l : List Char) (h : matchTime l = none) :
    (applyLine s l).1.time = s.time := by
  rw [applyLine_eq_explicit]
  unfold applyLineE
  rw [h]
  rcases matchExecTime l with _ | ⟨e, c⟩
  · rcases matchCourant l with _ | ⟨a, b⟩ <;>
      rcases matchDeltaT l with _ | d <;>
      rcases matchContinuity l with _ | ⟨x, y, z⟩ <;>
      rcases matchConverged l with _ | n <;>
      rcases matchNotConverged l with _ | n' <;> rfl
  · rfl

theorem applyLine_delta_t (s : PState) (l : List Char) (h : matchDeltaT l = none) :
    (applyLine s l).1.delta_t = s.delta_t := by
  rw [applyLine_eq_explicit]
  unfold applyLineE
  rw [h]
  rcases matchExecTime l with _ | ⟨e, c⟩
  · rcases matchCourant l with _ | ⟨a, b⟩ <;>
      rcases matchTime l with _ | t <;>
      rcases matchContinuity l with _ | ⟨x, y, z⟩ <;>
      rcases matchConverged l with _ | n <;>
      rcases matchNotConverged l with _ | n' <;> rfl
  · rfl

theorem applyLine_courant (s : PState) (l : List Char) (h : matchCourant l = none) :
    (applyLine s l).1.courant_number_mean = s.courant_number_mean ∧
    (applyLine s l).1.courant_number_max = s.courant_number_max := by
  rw [applyLine_eq_explicit]
  unfold applyLineE
  rw [h]
  rcases matchExecTime l with _ | ⟨e, c⟩
  · rcases matchDeltaT l with _ | d <;>
      rcases matchTime l with _ | t <;>
      rcases matchContinuity l with _ | ⟨x, y, z⟩ <;>
      rcases matchConverged l with _ | n <;>
      rcases matchNotConverged l with _ | n' <;> exact ⟨rfl, rfl⟩
  · exact ⟨rfl, rfl⟩

theorem applyLine_cont (s : PState) (l : List Char) (h : matchContinuity l = none) :
    (applyLine s l).1.continuity_errors_local = s.continuity_errors_local ∧
    (applyLine s l).1.continuity_errors_global = s.continuity_errors_global ∧
    (applyLine s l).1.continuity_errors_cumulative = s.continuity_errors_cumulative := by
  rw [applyLine_eq_explicit]
  unfold applyLineE
  rw [h]
  rcases matchExecTime l with _ | ⟨e, c⟩
  · rcases matchCourant l with _ | ⟨a, b⟩ <;>
      rcases matchDeltaT l with _ | d <;>
      rcases matchTime l with _ | t <;>
      rcases matchConverged l with _ | n <;>
      rcases matchNotConverged l with _ | n' <;> exact ⟨rfl, rfl, rfl⟩
  · exact ⟨rfl, rfl, rfl⟩

theorem applyLine_niter (s : PState) (l : List Char)
    (h1 : matchConverged l = none) (h2 : matchNotConverged l = none) :
    (applyLine s l).1.niterations = s.niterations ∧
    (applyLine s l).1.converged = s.converged := by
  rw [applyLine_eq_explicit]
  unfold applyLineE
  rw [h1, h2]
  rcases matchExecTime l with _ | ⟨e, c⟩
  · rcases matchCourant l with _ | ⟨a, b⟩ <;>
      rcases matchDeltaT l with _ | d <;>
      rcases matchTime l with _ | t <;>
      rcases matchContinuity l with _ | ⟨x, y, z⟩ <;> exact ⟨rfl, rfl⟩
  · exact ⟨rfl, rfl⟩

/-- `EndOfItem` is raised on a line exactly when the `ExecutionTime`
pattern matches it: only the first matcher of `_line_regexps` carries
`end=True`. -/
theorem applyLine_end_iff (s : PState) (l : List Char) :
    (applyLine s l).2 = true ↔ (matchExecTime l).isSome = true := by
  rw [applyLine_eq_explicit]
  unfold applyLineE
  rcases matchExecTime l with _ | ⟨e, c⟩
  · rcases matchCourant l with _ | ⟨a, b⟩ <;>
      rcases matchDeltaT l with _ | d <;>
      rcases matchTime l with _ | t <;>
      rcases matchContinuity l with _ | ⟨x, y, z⟩ <;>
      rcases matchConverged l with _ | n <;>
      rcases matchNotConverged l with _ | n' <;> simp
  · simp

/-- When the end-of-record matcher hits, the two captures are stored and
`EndOfItem` is raised before any other matcher touches the line. -/
theorem applyLine_end_state (s : PState) (l : List Char) {e c : List Char}
    (h : matchExecTime l = some (e, c)) :
    applyLine s l = ({s with execution_time := some e, clock_time := some c}, true) := by
  rw [applyLine_eq_explicit]
  unfold applyLineE
  rw [h]

/-- Effect of one line on the `_converged` attribute: the
`converged`-pattern sets it, the `not_converged`-pattern clears it,
any other line leaves it alone. -/
def convStep (b : Bool) (l : List Char) : Bool :=
  if (matchConverged l).isSome then true
  else if (matchNotConverged l).isSome then false
  else b

theorem applyLine_convStep (s : PState) (l : List Char) :
    (applyLine s l).1.converged = convStep s.converged l := by
  rcases h1 : matchExecTime l with _ | ⟨e, c⟩
  · rw [applyLine_eq_explicit]
    unfold applyLineE
    rw [h1]
    rcases h6 : matchConverged l with _ | n
    · rcases h7 : matchNotConverged l with _ | n' <;>
        rcases matchCourant l with _ | ⟨a, b⟩ <;>
        rcases matchDeltaT l with _ | d <;>
        rcases matchTime l with _ | t <;>
        rcases matchContinuity l with _ | ⟨x, y, z⟩ <;>
        simp [convStep, h6, h7]
    · have h7 : matchNotConverged l = none := conv_not_notConv h6
      rcases matchCourant l with _ | ⟨a, b⟩ <;>
        rcases matchDeltaT l with _ | d <;>
        rcases matchTime l with _ | t <;>
        rcases matchContinuity l with _ | ⟨x, y, z⟩ <;>
        rw [h7] <;>
        simp [convStep, h6, h7]
  · obtain ⟨hc, hnc⟩ := exec_not_pimple h1
    rw [applyLine_end_state s l h1]
    simp [convStep, hc, hnc]

/-!
## Decomposition of one `slurp` call
-/

/-- The lines of a prefix of the input were all processed without any
matcher raising `EndOfItem`, threading the state through. -/
def NoEndRun (s : PState) : List (List Char) → Prop
  | [] => True
  | l :: ls => (applyLine s l).2 = false ∧ NoEndRun (applyLine s l).1 ls

/-- The parser state after processing a list of lines none of which ended
the record. -/
def accumState (s : PState) (pre : List (List Char)) : PState :=
  pre.foldl (fun st l => (applyLine st l).1) s

theorem accumState_cons (s : PState) (l : List Char) (pre : List (List Char)) :
    accumState s (l :: pre) = accumState (applyLine s l).1 pre := rfl

/-- A successful `slurp` splits its input into the non-terminating lines,
the line on which `EndOfItem` fired, and the unread remainder; the
returned state is the accumulated state of the consumed lines with
`_time_index` incremented by the exception handler. -/
theorem slurp_decomp {s : PState} :
    ∀ {lines s' rest}, slurp s lines = some (s', rest) →
      ∃ pre last, lines = pre ++ last :: rest ∧ NoEndRun s pre ∧
        (applyLine (accumState s pre) last).2 = true ∧
        s' = {(applyLine (accumState s pre) last).1 with
              timeIndex := (applyLine (accumState s pre) last).1.timeIndex + 1} := by
  intro lines
  induction lines generalizing s with
  | nil => intro s' rest h; simp [slurp] at h
  | cons l ls ih =>
    intro s' rest h
    unfold slurp at h
    rcases ha : applyLine s l with ⟨s1, b⟩
    rw [ha] at h
    cases b with
    | true =>
      simp at h
      refine ⟨[], l, by simp [h.2.symm], trivial, ?_, ?_⟩
      · show (applyLine s l).2 = true
        rw [ha]
      · rw [show accumState s [] = s from rfl, ha]
        exact h.1.symm
    | false =>
      simp at h
      obtain ⟨pre', last', hsplit, hrun, hend, hstate⟩ := ih h
      refine ⟨l :: pre', last', by simp [hsplit], ?_, ?_, ?_⟩
      · exact ⟨by rw [ha], by rw [ha]; exact hrun⟩
      · rw [accumState_cons, ha]; exact hend
      · rw [accumState_cons, ha]; exact hstate

theorem slurp_timeIndex {s : PState} :
    ∀ {lines s' rest}, slurp s lines = some (s', rest) →
      s'.timeIndex = s.timeIndex + 1 := by
  intro lines
  induction lines generalizing s with
  | nil => intro s' rest h; simp [slurp] at h
  | cons l ls ih =>
    intro s' rest h
    unfold slurp at h
    rcases ha : applyLine s l with ⟨s1, b⟩
    rw [ha] at h
    cases b with
    | true =>
      simp at h
      have ht : s1.timeIndex = s.timeIndex := by
        have := applyLine_timeIndex s l
        rw [ha] at this
        exact this
      rw [← h.1, ht]
    | false =>
      simp at h
      have ht : s1.timeIndex = s.timeIndex := by
        have := applyLine_timeIndex s l
        rw [ha] at this
        exact this
      rw [ih h, ht]

theorem accumState_timeIndex {pre : List (List Char)} :
    ∀ {s : PState}, (accumState s pre).timeIndex = s.timeIndex := by
  induction pre with
  | nil => intro s; rfl
  | cons l ls ih =>
    intro s
    rw [accumState_cons, ih, applyLine_timeIndex]

theorem accumState_time {pre : List (List Char)} :
    ∀ {s : PState}, (∀ l ∈ pre, matchTime l = none) →
      (accumState s pre).time = s.time := by
  induction pre with
  | nil => intro s _; rfl
  | cons l ls ih =>
    intro s h
    rw [accumState_cons, ih (fun x hx => h x (List.mem_cons_of_mem _ hx))]
    exact applyLine_time s l (h l (List.mem_cons_self _ _))

theorem accumState_delta_t {pre : List (List Char)} :
    ∀ {s : PState}, (∀ l ∈ pre, matchDeltaT l = none) →
      (accumState s pre).delta_t = s.delta_t := by
  induction pre with
  | nil => intro s _; rfl
  | cons l ls ih =>
    intro s h
    rw [accumState_cons, ih (fun x hx => h x (List.mem_cons_of_mem _ hx))]
    exact applyLine_delta_t s l (h l (List.mem_cons_self _ _))

theorem accumState_courant {pre : List (List Char)} :
    ∀ {s : PState}, (∀ l ∈ pre, matchCourant l = none) →
      (accumState s pre).courant_number_mean = s.courant_number_mean ∧
      (accumState s pre).courant_number_max = s.courant_number_max := by
  induction pre with
  | nil => intro s _; exact ⟨rfl, rfl⟩
  | cons l ls ih =>
    intro s h
    have hl := applyLine_courant s l (h l (List.mem_cons_self _ _))
    have ht := ih (s := (applyLine s l).1) (fun x hx => h x (List.mem_cons_of_mem _ hx))
    rw [accumState_cons]
    exact ⟨ht.1.trans hl.1, ht.2.trans hl.2⟩

theorem accumState_cont {pre : List (List Char)} :
    ∀ {s : PState}, (∀ l ∈ pre, matchContinuity l = none) →
      (accumState s pre).continuity_errors_local = s.continuity_errors_local ∧
      (accumState s pre).continuity_errors_global = s.continuity_errors_global ∧
      (accumState s pre).continuity_errors_cumulative = s.continuity_errors_cumulative := by
  induction pre with
  | nil => intro s _; exact ⟨rfl, rfl, rfl⟩
  | cons l ls ih =>
    intro s h
    have hl := applyLine_cont s l (h l (List.mem_cons_self _ _))
    have ht := ih (s := (applyLine s l).1) (fun x hx => h x (List.mem_cons_of_mem _ hx))
    rw [accumState_cons]
    exact ⟨ht.1.trans hl.1, ht.2.1.trans hl.2.1, ht.2.2.trans hl.2.2⟩

theorem accumState_niter {pre : List (List Char)} :
    ∀ {s : PState}, (∀ l ∈ pre, matchConverged l = none ∧ matchNotConverged l = none) →
      (accumState s pre).niterations = s.niterations ∧
      (accumState s pre).converged = s.converged := by
  induction pre with
  | nil => intro s _; exact ⟨rfl, rfl⟩
  | cons l ls ih =>
    intro s h
    have hl := applyLine_niter s l (h l (List.mem_cons_self _ _)).1
      (h l (List.mem_cons_self _ _)).2
    have ht := ih (s := (applyLine s l).1) (fun x hx => h x (List.mem_cons_of_mem _ hx))
    rw [accumState_cons]
    exact ⟨ht.1.trans hl.1, ht.2.trans hl.2⟩

/-- `_converged` after a run of lines, as a fold of `convStep`. -/
def convFold (b : Bool) (lines : List (List Char)) : Bool := lines.foldl convStep b

theorem accumState_conv {pre : List (List Char)} :
    ∀ {s : PState}, (accumState s pre).converged = convFold s.converged pre := by
  induction pre with
  | nil => intro s; rfl
  | cons l ls ih =>
    intro s
    rw [accumState_cons, ih]
    show convFold (applyLine s l).1.converged ls = _
    rw [applyLine_convStep]
    rfl

/-- The consumed part of the input of a successful `slurp`, expressed as
a `take` of its input. -/
theorem take_consumed (pre : List (List Char)) (last : List Char) (rest : List (List Char)) :
    (pre ++ last :: rest).take ((pre ++ last :: rest).length - rest.length) = pre ++ [last] := by
  have hlen : (pre ++ last :: rest).length - rest.length = pre.length + 1 := by
    simp [List.length_append, List.length_cons]
    omega
  rw [hlen, List.take_append_eq_append_take]
  have h1 : pre.take (pre.length + 1) = pre := List.take_of_length_le (by omega)
  have h2 : pre.length + 1 - pre.length = 1 := by omega
  rw [h1, h2]
  rfl

/-!
## Stream-level helpers
-/

/-- Without a line matching the end-of-record pattern, `slurp` runs into
`StopIteration` and raises `NoMoreItems`. -/
theorem slurp_none_of_noEnd {lines : List (List Char)}
    (hl : ∀ l ∈ lines, matchExecTime l = none) :
    ∀ s : PState, slurp s lines = none := by
  induction lines with
  | nil => intro s; rfl
  | cons l ls ih =>
    intro s
    unfold slurp
    rcases ha : applyLine s l with ⟨s1, b⟩
    cases b with
    | true =>
      have h2 : (applyLine s l).2 = true := by rw [ha]
      rw [applyLine_end_iff] at h2
      rw [hl l (List.mem_cons_self _ _)] at h2
      simp at h2
    | false => exact ih (fun x hx => hl x (List.mem_cons_of_mem _ hx)) s1

theorem slurp_append_some {post : List (List Char)} :
    ∀ {pre : List (List Char)} {s s' : PState} {rest : List (List Char)},
      slurp s pre = some (s', rest) →
      slurp s (pre ++ post) = some (s', rest ++ post) := by
  intro pre
  induction pre with
  | nil => intro s s' rest h; simp [slurp] at h
  | cons l ls ih =>
    intro s s' rest h
    rw [List.cons_append]
    simp only [slurp] at h ⊢
    rcases ha : applyLine s l with ⟨s1, b⟩
    rw [ha] at h
    cases b with
    | true =>
      simp at h ⊢
      exact ⟨h.1, by rw [h.2]⟩
    | false => exact ih h

theorem slurp_none_append {post : List (List Char)}
    (hpost : ∀ l ∈ post, matchExecTime l = none) :
    ∀ {pre : List (List Char)} {s : PState},
      slurp s pre = none → slurp s (pre ++ post) = none := by
  intro pre
  induction pre with
  | nil => intro s _; exact slurp_none_of_noEnd hpost s
  | cons l ls ih =>
    intro s h
    rw [List.cons_append]
    simp only [slurp] at h ⊢
    rcases ha : applyLine s l with ⟨s1, b⟩
    rw [ha] at h
    cases b with
    | true => simp at h
    | false => exact ih h

theorem rowsOf_cons (row : Row) (r : RunResult) :
    rowsOf (match r with
            | .ok rows => .ok (row :: rows)
            | .attrError rows => .attrError (row :: rows))
    = row :: rowsOf r := by
  cases r <;> rfl

/-- Input after the point where the last record completed contributes
nothing to the output when it contains no end-of-record line. -/
theorem runLoop_append {post : List (List Char)}
    (hpost : ∀ l ∈ post, matchExecTime l = none) :
    ∀ (n : Nat) (pre : List (List Char)), pre.length ≤ n →
      ∀ s : PState, runLoop s (pre ++ post) = runLoop s pre := by
  intro n
  induction n with
  | zero =>
    intro pre hlen s
    have hp : pre = [] := List.eq_nil_of_length_eq_zero (Nat.le_zero.mp hlen)
    subst hp
    rw [List.nil_append, runLoop_eq s post, slurp_none_of_noEnd hpost s]
    rfl
  | succ n ih =>
    intro pre hlen s
    rw [runLoop_eq s (pre ++ post), runLoop_eq s pre]
    rcases hs : slurp s pre with _ | ⟨s1, rest⟩
    · rw [slurp_none_append hpost hs]
    · have h2 : slurp s (pre ++ post) = some (s1, rest ++ post) := slurp_append_some hs
      simp only [hs, h2]
      rcases hsp : spitFields s1 with _ | row
      · rfl
      · have hrest : rest.length ≤ n :=
          Nat.le_of_lt_succ (Nat.lt_of_lt_of_le (slurp_rest_length hs) hlen)
        rw [ih rest hrest s1]

/-- Full description of a successfully written row. -/
theorem spitFields_spec {s : PState} {row : Row} (h : spitFields s = some row) :
    ∃ cmax et ct,
      s.courant_number_max = some cmax ∧ s.execution_time = some et ∧
      s.clock_time = some ct ∧
      row = [natChars s.timeIndex, s.time, s.delta_t, s.courant_number_mean, cmax,
             s.continuity_errors_local, s.continuity_errors_global,
             s.continuity_errors_cumulative, s.niterations,
             (if s.converged then chars "1" else chars "0"), et, ct] := by
  unfold spitFields at h
  rcases hm : s.courant_number_max with _ | cmax <;> rw [hm] at h <;>
    rcases he : s.execution_time with _ | et <;> rw [he] at h <;>
    rcases hc : s.clock_time with _ | ct <;> rw [hc] at h <;>
    simp at h
  exact ⟨cmax, et, ct, rfl, rfl, rfl, h.symm⟩

/-- The first field printed by `spit` is `str(self.time_index)`. -/
theorem spitFields_head {s : PState} {row : Row} (h : spitFields s = some row) :
    row.head? = some (natChars s.timeIndex) := by
  obtain ⟨cmax, et, ct, _, _, _, hrow⟩ := spitFields_spec h
  rw [hrow]
  rfl

theorem spitFields_none_cnmax {s : PState} (h : s.courant_number_max = none) :
    spitFields s = none := by
  unfold spitFields
  rw [h]

/-- Fuel-indexed version of the `time_index` column invariant. -/
theorem runLoop_rows_head :
    ∀ (n : Nat) (lines : List (List Char)), lines.length ≤ n →
      ∀ (s : PState) (i : Nat) (row : Row),
        (rowsOf (runLoop s lines)).get? i = some row →
        row.head? = some (natChars (s.timeIndex + i + 1)) := by
  intro n
  induction n with
  | zero =>
    intro lines hlen s i row h
    have he : lines = [] := List.eq_nil_of_length_eq_zero (Nat.le_zero.mp hlen)
    subst he
    simp [runLoop, runLoopF, slurp, rowsOf] at h
  | succ n ih =>
    intro lines hlen s i row h
    rw [runLoop_eq] at h
    rcases hs : slurp s lines with _ | ⟨s1, rest⟩
    · simp only [hs, rowsOf] at h
      simp at h
    · simp only [hs] at h
      rcases hsp : spitFields s1 with _ | row0
      · simp only [hsp, rowsOf] at h
        simp at h
      · simp only [hsp] at h
        rw [rowsOf_cons] at h
        cases i with
        | zero =>
          simp at h
          rw [← h]
          rw [spitFields_head hsp, slurp_timeIndex hs]
        | succ i =>
          simp only [List.get?_cons_succ] at h
          have hrest : rest.length ≤ n :=
            Nat.le_of_lt_succ (Nat.lt_of_lt_of_le (slurp_rest_length hs) hlen)
          have hh := ih rest hrest s1 i row h
          rw [slurp_timeIndex hs] at hh
          have e : s.timeIndex + 1 + i + 1 = s.timeIndex + (i + 1) + 1 := by omega
          rw [e] at hh
          exact hh

/-!
## The `converged` column and per-record field preservation
-/

/-- Which of the two `PIMPLE:` patterns, if any, sets the `_converged`
attribute on a given line (`some true` for the converged pattern,
`some false` for the not-converged pattern). -/
def setterOf (l : List Char) : Option Bool :=
  if (matchConverged l).isSome then some true
  else if (matchNotConverged l).isSome then some false
  else none

theorem convStep_setterOf (b : Bool) (l : List Char) :
    convStep b l = (setterOf l).getD b := by
  unfold convStep setterOf
  by_cases h1 : (matchConverged l).isSome <;>
    by_cases h2 : (matchNotConverged l).isSome <;>
    simp [h1, h2]

theorem getLast?_cons_getD {α : Type} (a b : α) (xs : List α) :
    ((a :: xs).getLast?).getD b = (xs.getLast?).getD a := by
  cases xs with
  | nil => rfl
  | cons x xs =>
    rw [List.getLast?_cons_cons]
    have h : (x :: xs).getLast?.isSome = true := by
      rw [List.getLast?_isSome]
      simp
    obtain ⟨v, hv⟩ := Option.isSome_iff_exists.mp h
    rw [hv]
    rfl

/-- The fold of `convStep` is exactly "value set by the most recent
matching `PIMPLE:` line, else the starting value". -/
theorem convFold_lastSetter :
    ∀ (lines : List (List Char)) (b : Bool),
      convFold b lines = ((lines.filterMap setterOf).getLast?).getD b := by
  intro lines
  induction lines with
  | nil => intro b; rfl
  | cons l ls ih =>
    intro b
    show convFold (convStep b l) ls = _
    rw [ih, List.filterMap_cons]
    cases hst : setterOf l with
    | none => rw [convStep_setterOf, hst]; rfl
    | some v =>
      rw [convStep_setterOf, hst]
      simp only [Option.getD_some]
      rw [getLast?_cons_getD]

theorem slurp_converged {s : PState} {lines : List (List Char)} {s' : PState}
    {rest : List (List Char)} (h : slurp s lines = some (s', rest)) :
    s'.converged = convFold s.converged (lines.take (lines.length - rest.length)) := by
  obtain ⟨pre, last, hsplit, hrun, hend, hstate⟩ := slurp_decomp h
  subst hsplit
  rw [take_consumed, hstate]
  show (applyLine (accumState s pre) last).1.converged = _
  rw [applyLine_convStep, accumState_conv]
  unfold convFold
  rw [List.foldl_append]
  rfl

theorem slurp_time_pres {s : PState} {lines : List (List Char)} {s' : PState}
    {rest : List (List Char)} (h : slurp s lines = some (s', rest))
    (hl : ∀ l ∈ lines.take (lines.length - rest.length), matchTime l = none) :
    s'.time = s.time := by
  obtain ⟨pre, last, hsplit, hrun, hend, hstate⟩ := slurp_decomp h
  subst hsplit
  rw [take_consumed] at hl
  rw [hstate]
  show (applyLine (accumState s pre) last).1.time = _
  rw [applyLine_time _ _ (hl last (by simp))]
  exact accumState_time (fun x hx => hl x (by simp [hx]))

theorem slurp_delta_pres {s : PState} {lines : List (List Char)} {s' : PState}
    {rest : List (List Char)} (h : slurp s lines = some (s', rest))
    (hl : ∀ l ∈ lines.take (lines.length - rest.length), matchDeltaT l = none) :
    s'.delta_t = s.delta_t := by
  obtain ⟨pre, last, hsplit, hrun, hend, hstate⟩ := slurp_decomp h
  subst hsplit
  rw [take_consumed] at hl
  rw [hstate]
  show (applyLine (accumState s pre) last).1.delta_t = _
  rw [applyLine_delta_t _ _ (hl last (by simp))]
  exact accumState_delta_t (fun x hx => hl x (by simp [hx]))

theorem slurp_courant_pres {s : PState} {lines : List (List Char)} {s' : PState}
    {rest : List (List Char)} (h : slurp s lines = some (s', rest))
    (hl : ∀ l ∈ lines.take (lines.length - rest.length), matchCourant l = none) :
    s'.courant_number_mean = s.courant_number_mean ∧
    s'.courant_number_max = s.courant_number_max := by
  obtain ⟨pre, last, hsplit, hrun, hend, hstate⟩ := slurp_decomp h
  subst hsplit
  rw [take_consumed] at hl
  rw [hstate]
  have hmem : ∀ x ∈ pre, matchCourant x = none := fun x hx => hl x (by simp [hx])
  have hlast := applyLine_courant (accumState s pre) last (hl last (by simp))
  have hpre := accumState_courant (s := s) hmem
  exact ⟨hlast.1.trans hpre.1, hlast.2.trans hpre.2⟩

theorem slurp_cont_pres {s : PState} {lines : List (List Char)} {s' : PState}
    {rest : List (List Char)} (h : slurp s lines = some (s', rest))
    (hl : ∀ l ∈ lines.take (lines.length - rest.length), matchContinuity l = none) :
    s'.continuity_errors_local = s.continuity_errors_local ∧
    s'.continuity_errors_global = s.continuity_errors_global ∧
    s'.continuity_errors_cumulative = s.continuity_errors_cumulative := by
  obtain ⟨pre, last, hsplit, hrun, hend, hstate⟩ := slurp_decomp h
  subst hsplit
  rw [take_consumed] at hl
  rw [hstate]
  have hmem : ∀ x ∈ pre, matchContinuity x = none := fun x hx => hl x (by simp [hx])
  have hlast := applyLine_cont (accumState s pre) last (hl last (by simp))
  have hpre := accumState_cont (s := s) hmem
  exact ⟨hlast.1.trans hpre.1, hlast.2.1.trans hpre.2.1, hlast.2.2.trans hpre.2.2⟩

theorem slurp_niter_pres {s : PState} {lines : List (List Char)} {s' : PState}
    {rest : List (List Char)} (h : slurp s lines = some (s', rest))
    (hl : ∀ l ∈ lines.take (lines.length - rest.length),
          matchConverged l = none ∧ matchNotConverged l = none) :
    s'.niterations = s.niterations ∧ s'.converged = s.converged := by
  obtain ⟨pre, last, hsplit, hrun, hend, hstate⟩ := slurp_decomp h
  subst hsplit
  rw [take_consumed] at hl
  rw [hstate]
  have hmem : ∀ x ∈ pre, matchConverged x = none ∧ matchNotConverged x = none :=
    fun x hx => hl x (by simp [hx])
  have hlast := applyLine_niter (accumState s pre) last (hl last (by simp)).1
    (hl last (by simp)).2
  have hpre := accumState_niter (s := s) hmem
  exact ⟨hlast.1.trans hpre.1, hlast.2.trans hpre.2⟩

theorem slurp_exec_set {s : PState} {lines : List (List Char)} {s' : PState}
    {rest : List (List Char)} (h : slurp s lines = some (s', rest)) :
    ∃ lend e c,
      (lines.take (lines.length - rest.length)).getLast? = some lend ∧
      matchExecTime lend = some (e, c) ∧
      s'.execution_time = some e ∧ s'.clock_time = some c := by
  obtain ⟨pre, last, hsplit, hrun, hend, hstate⟩ := slurp_decomp h
  subst hsplit
  rw [take_consumed]
  rw [applyLine_end_iff] at hend
  obtain ⟨⟨e, c⟩, hec⟩ := Option.isSome_iff_exists.mp hend
  refine ⟨last, e, c, List.getLast?_concat _, hec, ?_, ?_⟩
  · rw [hstate, applyLine_end_state _ _ hec]
  · rw [hstate, applyLine_end_state _ _ hec]

/-!
## Lines built from an arbitrary captured value
-/

theorem noNL_append {p v : List Char} (hp : noNL p = true) (hv : noNL v = true) :
    noNL (p ++ v) = true := by
  unfold noNL at *
  rw [List.all_append, hp, hv]
  rfl

theorem matchDeltaT_append {v : List Char} (hne : v ≠ []) (hnl : noNL v = true) :
    matchDeltaT (chars "deltaT = " ++ v) = some v := by
  have hE : v.isEmpty = false := by
    cases v with
    | nil => exact absurd rfl hne
    | cons a as => rfl
  unfold matchDeltaT
  rw [if_pos (noNL_append (by decide) hnl)]
  rw [stripPrefix?_eq_some.mpr rfl]
  simp [hE]

theorem matchTime_onDeltaT (v : List Char) : matchTime (chars "deltaT = " ++ v) = none := by
  unfold matchTime
  rw [show stripPrefix? (chars "Time = ") (chars "deltaT = " ++ v) = none from rfl]
  simp

theorem matchExecTime_onDeltaT (v : List Char) :
    matchExecTime (chars "deltaT = " ++ v) = none := by
  unfold matchExecTime
  rw [show stripPrefix? (chars "ExecutionTime = ") (chars "deltaT = " ++ v) = none from rfl]
  simp

theorem matchCourant_onDeltaT (v : List Char) :
    matchCourant (chars "deltaT = " ++ v) = none := by
  unfold matchCourant
  rw [show stripPrefix? (chars "Courant Number mean: ") (chars "deltaT = " ++ v)
        = none from rfl]
  simp

theorem matchContinuity_onDeltaT (v : List Char) :
    matchContinuity (chars "deltaT = " ++ v) = none := by
  unfold matchContinuity
  rw [show stripPrefix? (chars "time step continuity errors : sum local = ")
        (chars "deltaT = " ++ v) = none from rfl]
  simp

theorem matchConverged_onDeltaT (v : List Char) :
    matchConverged (chars "deltaT = " ++ v) = none := by
  unfold matchConverged
  rw [show stripPrefix? (chars "PIMPLE: converged in ") (chars "deltaT = " ++ v)
        = none from rfl]
  simp

theorem matchNotConverged_onDeltaT (v : List Char) :
    matchNotConverged (chars "deltaT = " ++ v) = none := by
  unfold matchNotConverged
  rw [show stripPrefix? (chars "PIMPLE: not converged within ") (chars "deltaT = " ++ v)
        = none from rfl]
  simp

/-- If no line of the input matches the Courant pattern, no data row is
ever emitted: the `courant_number_max` attribute never comes into
existence, so the first completed record crashes `spit` with
`AttributeError` (and with no completed record the run just ends). -/
theorem runLoop_no_courant {lines : List (List Char)}
    (hl : ∀ l ∈ lines, matchCourant l = none) :
    rowsOf (runLoop initState lines) = [] := by
  rw [runLoop_eq]
  rcases hs : slurp initState lines with _ | ⟨s1, rest⟩
  · rfl
  · have hc : s1.courant_number_max = none :=
      (slurp_courant_pres hs (fun x hx => hl x (List.take_subset _ _ hx))).2
    have hsp : spitFields s1 = none := spitFields_none_cnmax hc
    simp only [hsp]
    rfl

/-- A run whose `slurp` consumes the whole input in one record emits
exactly that record's row. -/
theorem runLoop_single {s : PState} {lines : List (List Char)} {s1 : PState} {row : Row}
    (h : slurp s lines = some (s1, [])) (hrow : spitFields s1 = some row) :
    runLoop s lines = .ok [row] := by
  rw [runLoop_eq]
  simp only [h, hrow]
  rw [show runLoop s1 [] = .ok [] from rfl]

/-!
## Claims
-/

/-- C1 (counterexample): on exactly the six lines of the claim the program
writes the header and one data row, but the row is
`1 0.1 0.001 0.05 0.3 1e-6 2e-6 3e-6 4 1 12.3 13.1` — its first column is
`1`, not `0`, because `slurp` increments `_time_index` in the `EndOfItem`
handler *before* `spit` prints it.  The claimed row therefore differs from
the written one. -/
theorem foamC1_cx :
    programOutput
      [chars "Time = 0.1",
       chars "Courant Number mean: 0.05 max: 0.3",
       chars "deltaT = 0.001",
       chars "time step continuity errors : sum local = 1e-6, global = 2e-6, cumulative = 3e-6",
       chars "PIMPLE: converged in 4 iterations",
       chars "ExecutionTime = 12.3 s  ClockTime = 13.1 s"]
    = ([headerLine, chars "1 0.1 0.001 0.05 0.3 1e-6 2e-6 3e-6 4 1 12.3 13.1"], true) ∧
    chars "1 0.1 0.001 0.05 0.3 1e-6 2e-6 3e-6 4 1 12.3 13.1"
      ≠ chars "0 0.1 0.001 0.05 0.3 1e-6 2e-6 3e-6 4 1 12.3 13.1" :=
  ⟨by decide, by decide⟩

/-- C1 (amended): for the input consisting exactly of the six lines
`Time = 0.1`, `Courant Number mean: 0.05 max: 0.3`, `deltaT = 0.001`,
`time step continuity errors : sum local = 1e-6, global = 2e-6, cumulative = 3e-6`,
`PIMPLE: converged in 4 iterations`,
`ExecutionTime = 12.3 s  ClockTime = 13.1 s`, the program writes the
header line followed by exactly one data row, that row is exactly
`1 0.1 0.001 0.05 0.3 1e-6 2e-6 3e-6 4 1 12.3 13.1`, and the run exits
cleanly. -/
theorem foamC1 :
    programOutput
      [chars "Time = 0.1",
       chars "Courant Number mean: 0.05 max: 0.3",
       chars "deltaT = 0.001",
       chars "time step continuity errors : sum local = 1e-6, global = 2e-6, cumulative = 3e-6",
       chars "PIMPLE: converged in 4 iterations",
       chars "ExecutionTime = 12.3 s  ClockTime = 13.1 s"]
    = ([headerLine, chars "1 0.1 0.001 0.05 0.3 1e-6 2e-6 3e-6 4 1 12.3 13.1"], true) := by
  decide

/-- C2 (counterexample): on a minimal single-record input the first (and
only) emitted row carries `time_index = 1` in its first column, not `0`:
the increment happens in `slurp` before `spit` reads the value, so the
n-th row shows `n`, not `n-1`. -/
theorem foamC2_cx :
    rowsOf (runLoop initState
      [chars "Courant Number mean: 0.1 max: 0.2",
       chars "ExecutionTime = 3 s  ClockTime = 4 s"])
    = [[chars "1", chars "-1", chars "-1", chars "0.1", chars "0.2", chars "-1", chars "-1",
        chars "-1", chars "-1", chars "0", chars "3", chars "4"]] ∧
    (chars "1" : List Char) ≠ chars "0" :=
  ⟨by decide, by decide⟩

/-- C2 (amended): for every input stream and every starting state, the
first column of the i-th emitted data row (0-based) is
`str(timeIndex + i + 1)`; in particular, from the initial state the n-th
row carries `n` (1-based): the counter starts at 1 for the first completed
record, increments by exactly 1 per record, and is never reset. -/
theorem foamC2 (s : PState) (lines : List (List Char)) (i : Nat) (row : Row)
    (h : (rowsOf (runLoop s lines)).get? i = some row) :
    row.head? = some (natChars (s.timeIndex + i + 1)) :=
  runLoop_rows_head lines.length lines (Nat.le_refl _) s i row h

/-- C2 (witness): the amended claim applied to a concrete two-line record
stream at row index 0. -/
theorem foamC2_w :
    (rowsOf (runLoop initState
      [chars "Courant Number mean: 0.7 max: 0.9",
       chars "ExecutionTime = 5 s  ClockTime = 6 s"])).get? 0
      = some [chars "1", chars "-1", chars "-1", chars "0.7", chars "0.9", chars "-1",
              chars "-1", chars "-1", chars "-1", chars "0", chars "5", chars "6"] ∧
    List.head? [chars "1", chars "-1", chars "-1", chars "0.7", chars "0.9", chars "-1",
                chars "-1", chars "-1", chars "-1", chars "0", chars "5", chars "6"]
      = some (natChars (initState.timeIndex + 0 + 1)) :=
  ⟨by decide,
   foamC2 initState
     [chars "Courant Number mean: 0.7 max: 0.9",
      chars "ExecutionTime = 5 s  ClockTime = 6 s"] 0
     [chars "1", chars "-1", chars "-1", chars "0.7", chars "0.9", chars "-1",
      chars "-1", chars "-1", chars "-1", chars "0", chars "5", chars "6"] (by decide)⟩

/-- C7 (counterexample): in `_line_regexps` the end-of-record matcher (the
only one with `end=True`) is the *first* element, not the last: the
end-flag pattern of the seven matchers in evaluation order is
`[true, false, false, false, false, false, false]`, and the last matcher
does not carry the end flag. -/
theorem foamC7_cx :
    lineRegexps.map (fun m => m.endFlag)
      = [true, false, false, false, false, false, false] ∧
    (lineRegexps.getLast?).map (fun m => m.endFlag) = some false :=
  ⟨rfl, rfl⟩

/-- C7 (amended): the end-of-record matcher is unconditionally *first* in
the evaluation priority order of the fixed configuration; every matcher is
evaluated against every incoming line in list order except that when the
end marker matches a line, `EndOfItem` is raised at once and the remaining
matchers are skipped for that line — consequently `EndOfItem` is raised on
a line if and only if the `ExecutionTime`/`ClockTime` pattern matches it. -/
theorem foamC7 :
    lineRegexps.map (fun m => m.endFlag)
      = [true, false, false, false, false, false, false] ∧
    ∀ (s : PState) (l : List Char),
      ((applyLine s l).2 = true ↔ (matchExecTime l).isSome = true) :=
  ⟨rfl, applyLine_end_iff⟩

/-- C8: with an output path whose file already exists and no `--force`,
`_run` raises `IOError` during its pre-flight checks — before the output
file is opened for writing, so its contents are untouched — and the
process exits nonzero; this holds whatever the input stream holds, and
also when additionally the input file is missing (the input check then
fires first, still a resource error before any processing). -/
theorem foamC8 (inputExists inputGiven : Bool) (lines : List (List Char)) :
    runCLI inputExists true ⟨inputGiven, true, false⟩ lines
    = .error (if inputGiven && !inputExists then .inputMissing else .outputExists) := by
  cases inputExists <;> cases inputGiven <;> rfl

/-- C9: `LogLineRegexp.__init__` raises its `UserWarning` if and only if
the capture-group count of the compiled pattern differs from the number of
variable names supplied (`var` plus the extra positional arguments); the
seven matchers of `LogItemParser.__init__` all pass this construction-time
check, which runs before any line is processed. -/
theorem foamC9 :
    (∀ (groups : Nat) (run : List Char → Option (List (List Char)))
       (var : ValField) (args : List ValField) (endFlag : Bool)
       (matchFlag : Option FlagField),
       (∃ msg, mkLogLineRegexp groups run var args endFlag matchFlag = .error msg) ↔
         groups ≠ (var :: args).length) ∧
    lineRegexpsChecked = .ok lineRegexps := by
  constructor
  · intro groups run var args endFlag matchFlag
    unfold mkLogLineRegexp
    by_cases h : groups = (var :: args).length
    · simp [h]
    · have h2 : ¬groups = args.length + 1 := by simpa using h
      simp [h2]
  · rfl

/-- C3 (counterexample): record completion does *not* reset field values.
In a two-record stream whose second record contains no `Time = ...` line,
the second row still shows `0.5` — the time captured by the *first*
record — instead of the default `-1`; the terminal line of the second
record matches no `Time` pattern, so the value was carried over. -/
theorem foamC3_cx :
    rowsOf (runLoop initState
      [chars "Time = 0.5",
       chars "Courant Number mean: 0.1 max: 0.2",
       chars "ExecutionTime = 1 s  ClockTime = 2 s",
       chars "ExecutionTime = 3 s  ClockTime = 4 s"])
    = [[chars "1", chars "0.5", chars "-1", chars "0.1", chars "0.2", chars "-1", chars "-1",
        chars "-1", chars "-1", chars "0", chars "1", chars "2"],
       [chars "2", chars "0.5", chars "-1", chars "0.1", chars "0.2", chars "-1", chars "-1",
        chars "-1", chars "-1", chars "0", chars "3", chars "4"]] ∧
    matchTime (chars "ExecutionTime = 3 s  ClockTime = 4 s") = none ∧
    (chars "0.5" : List Char) ≠ chars "-1" :=
  ⟨by decide, by decide, by decide⟩

/-- C3 (amended): the defaults of `__init__` hold only at the start of the
run, and record completion performs no reset: after a completed record,
every property-backed field whose pattern matched no consumed line keeps
the value it had when the record started accumulating (for the first
record, the defaults time `-1`, delta_t `-1`, courant mean `0`, continuity
errors `-1`, niterations `-1`, converged false; for later records, the
previous record's values).  `courant_number_max`, `execution_time` and
`clock_time` have no property and no readable default at all — if no
Courant line has matched since the start of the run, writing any completed
record crashes with `AttributeError`, so no data row is ever emitted. -/
theorem foamC3 :
    (initState.time = chars "-1" ∧ initState.delta_t = chars "-1" ∧
     initState.courant_number_mean = chars "0" ∧ initState.courant_number_max = none ∧
     initState.continuity_errors_local = chars "-1" ∧
     initState.continuity_errors_global = chars "-1" ∧
     initState.continuity_errors_cumulative = chars "-1" ∧
     initState.niterations = chars "-1" ∧ initState.converged = false ∧
     initState.execution_time = none ∧ initState.clock_time = none) ∧
    (∀ (s : PState) (lines : List (List Char)) (s' : PState) (rest : List (List Char)),
      slurp s lines = some (s', rest) →
      ((∀ l ∈ lines.take (lines.length - rest.length), matchTime l = none) →
        s'.time = s.time) ∧
      ((∀ l ∈ lines.take (lines.length - rest.length), matchDeltaT l = none) →
        s'.delta_t = s.delta_t) ∧
      ((∀ l ∈ lines.take (lines.length - rest.length), matchCourant l = none) →
        s'.courant_number_mean = s.courant_number_mean ∧
        s'.courant_number_max = s.courant_number_max) ∧
      ((∀ l ∈ lines.take (lines.length - rest.length), matchContinuity l = none) →
        s'.continuity_errors_local = s.continuity_errors_local ∧
        s'.continuity_errors_global = s.continuity_errors_global ∧
        s'.continuity_errors_cumulative = s.continuity_errors_cumulative) ∧
      ((∀ l ∈ lines.take (lines.length - rest.length),
          matchConverged l = none ∧ matchNotConverged l = none) →
        s'.niterations = s.niterations ∧ s'.converged = s.converged)) ∧
    (∀ lines : List (List Char), (∀ l ∈ lines, matchCourant l = none) →
      rowsOf (runLoop initState lines) = []) := by
  refine ⟨⟨rfl, rfl, rfl, rfl, rfl, rfl, rfl, rfl, rfl, rfl, rfl⟩, ?_, ?_⟩
  · intro s lines s' rest h
    exact ⟨fun hl => slurp_time_pres h hl, fun hl => slurp_delta_pres h hl,
           fun hl => slurp_courant_pres h hl, fun hl => slurp_cont_pres h hl,
           fun hl => slurp_niter_pres h hl⟩
  · intro lines hl
    exact runLoop_no_courant hl

/-- C3 (witness): the amended claim applied to a one-line record stream
(the terminal line only): the completed record keeps the defaults of every
property-backed field, and a stream without Courant lines yields no rows. -/
theorem foamC3_w :
    slurp initState [chars "ExecutionTime = 5 s  ClockTime = 6 s"]
      = some ({ timeIndex := 1, time := chars "-1", delta_t := chars "-1",
                courant_number_mean := chars "0", courant_number_max := none,
                continuity_errors_local := chars "-1", continuity_errors_global := chars "-1",
                continuity_errors_cumulative := chars "-1", niterations := chars "-1",
                converged := false, execution_time := some (chars "5"),
                clock_time := some (chars "6") }, []) ∧
    ({ timeIndex := 1, time := chars "-1", delta_t := chars "-1",
       courant_number_mean := chars "0", courant_number_max := none,
       continuity_errors_local := chars "-1", continuity_errors_global := chars "-1",
       continuity_errors_cumulative := chars "-1", niterations := chars "-1",
       converged := false, execution_time := some (chars "5"),
       clock_time := some (chars "6") } : PState).time = chars "-1" ∧
    rowsOf (runLoop initState [chars "ExecutionTime = 5 s  ClockTime = 6 s"]) = [] :=
  ⟨by decide,
   (foamC3.2.1 initState [chars "ExecutionTime = 5 s  ClockTime = 6 s"]
     { timeIndex := 1, time := chars "-1", delta_t := chars "-1",
       courant_number_mean := chars "0", courant_number_max := none,
       continuity_errors_local := chars "-1", continuity_errors_global := chars "-1",
       continuity_errors_cumulative := chars "-1", niterations := chars "-1",
       converged := false, execution_time := some (chars "5"),
       clock_time := some (chars "6") } [] (by decide)).1 (by decide),
   foamC3.2.2 [chars "ExecutionTime = 5 s  ClockTime = 6 s"] (by decide)⟩

/-- C4 (counterexample): a capture that is not a number does *not* abort
the run.  With the line `deltaT = abc` in an otherwise complete record,
`__call__` stores the raw string `abc` via `setattr`, no conversion to a
numeric type is ever attempted, the run finishes cleanly (exit 0) and the
row carries `abc` verbatim in the `delta_t` column. -/
theorem foamC4_cx :
    programOutput
      [chars "deltaT = abc",
       chars "Courant Number mean: 0.1 max: 0.2",
       chars "ExecutionTime = 1 s  ClockTime = 2 s"]
    = ([headerLine, chars "1 -1 abc 0.1 0.2 -1 -1 -1 -1 0 1 2"], true) ∧
    rowsOf (runLoop initState
      [chars "deltaT = abc",
       chars "Courant Number mean: 0.1 max: 0.2",
       chars "ExecutionTime = 1 s  ClockTime = 2 s"])
    = [[chars "1", chars "-1", chars "abc", chars "0.1", chars "0.2", chars "-1", chars "-1",
        chars "-1", chars "-1", chars "0", chars "1", chars "2"]] :=
  ⟨by decide, by decide⟩

/-- C4 (amended): on every matched line each capture group (in order) is
assigned to the corresponding record attribute as the *raw captured
string*; no parsing to a numeric type happens at match time or at output
time, so a capture that is not convertible to a number never causes a
parse error: for any nonempty newline-free string `v`, the record
`deltaT = v`, a Courant line and a terminal line complete cleanly with
`v` emitted verbatim as the `delta_t` column. -/
theorem foamC4 (v : List Char) (hne : v ≠ []) (hnl : noNL v = true) :
    runLoop initState
      [chars "deltaT = " ++ v,
       chars "Courant Number mean: 0.1 max: 0.2",
       chars "ExecutionTime = 1 s  ClockTime = 2 s"]
    = .ok [[chars "1", chars "-1", v, chars "0.1", chars "0.2", chars "-1", chars "-1",
            chars "-1", chars "-1", chars "0", chars "1", chars "2"]] := by
  have h1 : applyLine initState (chars "deltaT = " ++ v)
      = ({initState with delta_t := v}, false) := by
    rw [applyLine_eq_explicit]
    unfold applyLineE
    rw [matchExecTime_onDeltaT, matchCourant_onDeltaT, matchDeltaT_append hne hnl,
        matchTime_onDeltaT, matchContinuity_onDeltaT, matchConverged_onDeltaT,
        matchNotConverged_onDeltaT]
  have h2 : applyLine {initState with delta_t := v}
      (chars "Courant Number mean: 0.1 max: 0.2")
      = ({initState with
          delta_t := v
          courant_number_mean := chars "0.1"
          courant_number_max := some (chars "0.2")}, false) := by
    rw [applyLine_eq_explicit]
    unfold applyLineE
    rw [show matchExecTime (chars "Courant Number mean: 0.1 max: 0.2") = none from by decide,
        show matchCourant (chars "Courant Number mean: 0.1 max: 0.2")
          = some (chars "0.1", chars "0.2") from by decide,
        show matchDeltaT (chars "Courant Number mean: 0.1 max: 0.2") = none from by decide,
        show matchTime (chars "Courant Number mean: 0.1 max: 0.2") = none from by decide,
        show matchContinuity (chars "Courant Number mean: 0.1 max: 0.2") = none from by decide,
        show matchConverged (chars "Courant Number mean: 0.1 max: 0.2") = none from by decide,
        show matchNotConverged (chars "Courant Number mean: 0.1 max: 0.2")
          = none from by decide]
  have h3 : applyLine
      {initState with
       delta_t := v
       courant_number_mean := chars "0.1"
       courant_number_max := some (chars "0.2")}
      (chars "ExecutionTime = 1 s  ClockTime = 2 s")
      = ({initState with
          delta_t := v
          courant_number_mean := chars "0.1"
          courant_number_max := some (chars "0.2")
          execution_time := some (chars "1")
          clock_time := some (chars "2")}, true) :=
    applyLine_end_state _ _ (by decide)
  have hs : slurp initState
      [chars "deltaT = " ++ v,
       chars "Courant Number mean: 0.1 max: 0.2",
       chars "ExecutionTime = 1 s  ClockTime = 2 s"]
      = some ({initState with
               timeIndex := 1
               delta_t := v
               courant_number_mean := chars "0.1"
               courant_number_max := some (chars "0.2")
               execution_time := some (chars "1")
               clock_time := some (chars "2")}, []) := by
    simp only [slurp, h1, h2, h3]
    rfl
  have hrow0 : spitFields
      ({initState with
        timeIndex := 1
        delta_t := v
        courant_number_mean := chars "0.1"
        courant_number_max := some (chars "0.2")
        execution_time := some (chars "1")
        clock_time := some (chars "2")})
      = some [natChars 1, initState.time, v, chars "0.1", chars "0.2",
              initState.continuity_errors_local, initState.continuity_errors_global,
              initState.continuity_errors_cumulative, initState.niterations,
              (if initState.converged then chars "1" else chars "0"),
              chars "1", chars "2"] := rfl
  have hrow1 :
      some [natChars 1, initState.time, v, chars "0.1", chars "0.2",
            initState.continuity_errors_local, initState.continuity_errors_global,
            initState.continuity_errors_cumulative, initState.niterations,
            (if initState.converged then chars "1" else chars "0"),
            chars "1", chars "2"]
      = some [chars "1", chars "-1", v, chars "0.1", chars "0.2", chars "-1", chars "-1",
              chars "-1", chars "-1", chars "0", chars "1", chars "2"] := rfl
  exact runLoop_single hs (hrow0.trans hrow1)

/-- C4 (witness): the amended claim applied to the non-numeric capture
`abc`. -/
theorem foamC4_w :
    chars "abc" ≠ [] ∧
    runLoop initState
      [chars "deltaT = " ++ chars "abc",
       chars "Courant Number mean: 0.1 max: 0.2",
       chars "ExecutionTime = 1 s  ClockTime = 2 s"]
    = .ok [[chars "1", chars "-1", chars "abc", chars "0.1", chars "0.2", chars "-1",
            chars "-1", chars "-1", chars "-1", chars "0", chars "1", chars "2"]] :=
  ⟨by decide, foamC4 (chars "abc") (by decide) (by decide)⟩

/-- C5: lines after the last completed record that contain no
`ExecutionTime`/`ClockTime` end-marker line produce no output row — the
run behaves exactly as if they were absent, ending in `NoMoreItems`, which
`_run` catches and turns into exit code 0; in particular an input with
zero end markers yields exactly the header line, no data rows, and a clean
exit. -/
theorem foamC5 (pre post : List (List Char))
    (hpost : ∀ l ∈ post, matchExecTime l = none) :
    programOutput (pre ++ post) = programOutput pre ∧
    programOutput post = ([headerLine], true) := by
  constructor
  · unfold programOutput
    rw [runLoop_append hpost pre.length pre (Nat.le_refl _) initState]
  · unfold programOutput
    have h0 : runLoop initState post = runLoop initState [] := by
      have h := runLoop_append hpost 0 [] (Nat.le_refl _) initState
      rw [List.nil_append] at h
      exact h
    rw [h0]
    rfl

/-- C5 (witness): a one-line input with no end marker yields the header
only and a clean exit. -/
theorem foamC5_w :
    (∀ l ∈ [chars "Time = 7"], matchExecTime l = none) ∧
    programOutput [chars "Time = 7"] = ([headerLine], true) :=
  ⟨by decide, (foamC5 [] [chars "Time = 7"] (by decide)).2⟩

/-- C6: the converged column of an emitted row is `1` exactly when the
most recent line (among the lines consumed for the record, hence — since
nothing is ever reset — since the start of the stream when composed across
records) that matched either `PIMPLE:` pattern was the
`converged in N iterations` pattern, and `0` when it was the
`not converged within N iterations` pattern or when neither ever matched
(the starting value, `false` at construction). -/
theorem foamC6 (s : PState) (lines : List (List Char)) (s' : PState)
    (rest : List (List Char)) (row : Row)
    (h : slurp s lines = some (s', rest)) (hrow : spitFields s' = some row) :
    (row.get? 9 = some (chars "1") ↔
      ((((lines.take (lines.length - rest.length)).filterMap setterOf).getLast?).getD
        s.converged) = true) ∧
    (row.get? 9 = some (chars "0") ↔
      ((((lines.take (lines.length - rest.length)).filterMap setterOf).getLast?).getD
        s.converged) = false) := by
  obtain ⟨cmax, et, ct, hm, he2, hc2, hr⟩ := spitFields_spec hrow
  have hg9 : row.get? 9 = some (if s'.converged then chars "1" else chars "0") := by
    rw [hr]
    rfl
  rw [hg9, slurp_converged h, convFold_lastSetter]
  cases hB : ((((lines.take (lines.length - rest.length)).filterMap setterOf).getLast?).getD
      s.converged) with
  | false => exact ⟨by decide, by decide⟩
  | true => exact ⟨by decide, by decide⟩

/-- C6 (witness): the claim applied to a record whose last `PIMPLE:`
setter line is the converged pattern: column 9 of its row is `1`. -/
theorem foamC6_w :
    slurp initState
      [chars "PIMPLE: converged in 4 iterations",
       chars "Courant Number mean: 0.3 max: 0.4",
       chars "ExecutionTime = 8 s  ClockTime = 9 s"]
      = some ({ timeIndex := 1, time := chars "-1", delta_t := chars "-1",
                courant_number_mean := chars "0.3",
                courant_number_max := some (chars "0.4"),
                continuity_errors_local := chars "-1",
                continuity_errors_global := chars "-1",
                continuity_errors_cumulative := chars "-1", niterations := chars "4",
                converged := true, execution_time := some (chars "8"),
                clock_time := some (chars "9") }, []) ∧
    ([chars "1", chars "-1", chars "-1", chars "0.3", chars "0.4", chars "-1", chars "-1",
      chars "-1", chars "4", chars "1", chars "8", chars "9"].get? 9 = some (chars "1") ↔
      (((([chars "PIMPLE: converged in 4 iterations",
           chars "Courant Number mean: 0.3 max: 0.4",
           chars "ExecutionTime = 8 s  ClockTime = 9 s"].filterMap
            setterOf).getLast?).getD false) = true)) :=
  ⟨by decide,
   (foamC6 initState
     [chars "PIMPLE: converged in 4 iterations",
      chars "Courant Number mean: 0.3 max: 0.4",
      chars "ExecutionTime = 8 s  ClockTime = 9 s"]
     { timeIndex := 1, time := chars "-1", delta_t := chars "-1",
       courant_number_mean := chars "0.3", courant_number_max := some (chars "0.4"),
       continuity_errors_local := chars "-1", continuity_errors_global := chars "-1",
       continuity_errors_cumulative := chars "-1", niterations := chars "4",
       converged := true, execution_time := some (chars "8"),
       clock_time := some (chars "9") } []
     [chars "1", chars "-1", chars "-1", chars "0.3", chars "0.4", chars "-1", chars "-1",
      chars "-1", chars "4", chars "1", chars "8", chars "9"]
     (by decide) (by decide)).1⟩

/-- C10: the `execution_time` and `clock_time` columns of every emitted
row are exactly the two substrings captured from the
`ExecutionTime`/`ClockTime` line that terminated that same record: that
line is the last one consumed, its matcher assigns both attributes right
before raising `EndOfItem`, a row is only written after that signal, and
columns 10 and 11 of the row repeat those two captures verbatim. -/
theorem foamC10 (s : PState) (lines : List (List Char)) (s' : PState)
    (rest : List (List Char)) (h : slurp s lines = some (s', rest)) :
    ∃ lend e c,
      (lines.take (lines.length - rest.length)).getLast? = some lend ∧
      matchExecTime lend = some (e, c) ∧
      s'.execution_time = some e ∧ s'.clock_time = some c ∧
      ∀ row, spitFields s' = some row →
        row.get? 10 = some e ∧ row.get? 11 = some c := by
  obtain ⟨lend, e, c, h1, h2, h3, h4⟩ := slurp_exec_set h
  refine ⟨lend, e, c, h1, h2, h3, h4, ?_⟩
  intro row hrow
  obtain ⟨cmax, et, ct, hm, he, hc, hr⟩ := spitFields_spec hrow
  rw [he] at h3
  rw [hc] at h4
  injection h3 with h3
  injection h4 with h4
  rw [hr, ← h3, ← h4]
  exact ⟨rfl, rfl⟩

/-- C10 (witness): the claim applied to a concrete record terminated by
`ExecutionTime = 11 s  ClockTime = 12 s`. -/
theorem foamC10_w :
    slurp initState
      [chars "Courant Number mean: 0.5 max: 0.6",
       chars "ExecutionTime = 11 s  ClockTime = 12 s"]
      = some ({ timeIndex := 1, time := chars "-1", delta_t := chars "-1",
                courant_number_mean := chars "0.5",
                courant_number_max := some (chars "0.6"),
                continuity_errors_local := chars "-1",
                continuity_errors_global := chars "-1",
                continuity_errors_cumulative := chars "-1", niterations := chars "-1",
                converged := false, execution_time := some (chars "11"),
                clock_time := some (chars "12") }, []) ∧
    (∃ lend e c,
      ([chars "Courant Number mean: 0.5 max: 0.6",
        chars "ExecutionTime = 11 s  ClockTime = 12 s"].take
          ([chars "Courant Number mean: 0.5 max: 0.6",
            chars "ExecutionTime = 11 s  ClockTime = 12 s"].length -
            List.length ([] : List (List Char)))).getLast? = some lend ∧
      matchExecTime lend = some (e, c) ∧
      ({ timeIndex := 1, time := chars "-1", delta_t := chars "-1",
         courant_number_mean := chars "0.5", courant_number_max := some (chars "0.6"),
         continuity_errors_local := chars "-1", continuity_errors_global := chars "-1",
         continuity_errors_cumulative := chars "-1", niterations := chars "-1",
         converged := false, execution_time := some (chars "11"),
         clock_time := some (chars "12") } : PState).execution_time = some e ∧
      ({ timeIndex := 1, time := chars "-1", delta_t := chars "-1",
         courant_number_mean := chars "0.5", courant_number_max := some (chars "0.6"),
         continuity_errors_local := chars "-1", continuity_errors_global := chars "-1",
         continuity_errors_cumulative := chars "-1", niterations := chars "-1",
         converged := false, execution_time := some (chars "11"),
         clock_time := some (chars "12") } : PState).clock_time = some c ∧
      ∀ row, spitFields
          { timeIndex := 1, time := chars "-1", delta_t := chars "-1",
            courant_number_mean := chars "0.5", courant_number_max := some (chars "0.6"),
            continuity_errors_local := chars "-1", continuity_errors_global := chars "-1",
            continuity_errors_cumulative := chars "-1", niterations := chars "-1",
            converged := false, execution_time := some (chars "11"),
            clock_time := some (chars "12") } = some row →
        row.get? 10 = some e ∧ row.get? 11 = some c) :=
  ⟨by decide,
   foamC10 initState
     [chars "Courant Number mean: 0.5 max: 0.6",
      chars "ExecutionTime = 11 s  ClockTime = 12 s"]
     { timeIndex := 1, time := chars "-1", delta_t := chars "-1",
       courant_number_mean := chars "0.5", courant_number_max := some (chars "0.6"),
       continuity_errors_local := chars "-1", continuity_errors_global := chars "-1",
       continuity_errors_cumulative := chars "-1", niterations := chars "-1",
       converged := false, execution_time := some (chars "11"),
       clock_time := some (chars "12") } [] (by decide)⟩
